import Mathlib

/-!
A shallow embedding of the value-sanitization transform implemented by
`simulate_swift_sanitize` in `demonstrate_yaml_fix.py` (lines 61-81), together
with proofs of the specification's testable properties.

The Python function recursively walks a nested value and

* converts a `datetime` to `obj.isoformat() + "Z"`;
* converts `bytes` to standard RFC 4648 base64 text via `base64.b64encode`;
* converts a `Path` to its carried string form via `str(obj)`;
* rebuilds a `dict` with unchanged keys and sanitized values;
* rebuilds a `list` with sanitized elements;
* returns every other value unchanged.

The embedding models Python values by the inductive type `Value` below, a
`datetime` by the `Instant` structure (fields as CPython stores them; the
CPython constructor validates the ranges captured by `Instant.valid`), `bytes`
by a list of byte values, and a `Path` by the canonical string it carries
(`str(Path(...))`).
-/

/-- The character for the low decimal digit of `n`, as CPython's fixed-width
field formatting emits it. -/
def digitChar (n : Nat) : Char := Char.ofNat (48 + n % 10)

/-- Two-digit zero-padded decimal field (`%02d` on values below 100), as used
for month, day, hour, minute and second in `datetime.isoformat`. -/
def pad2 (n : Nat) : String := String.mk [digitChar (n / 10), digitChar n]

/-- Four-digit zero-padded decimal field (`%04d` on values below 10000), as
used for the year in `datetime.isoformat`. -/
def pad4 (n : Nat) : String :=
  String.mk [digitChar (n / 1000), digitChar (n / 100), digitChar (n / 10), digitChar n]

/-- Six-digit zero-padded decimal field (`%06d` on values below 1000000), as
used for the microseconds in `datetime.isoformat`. -/
def pad6 (n : Nat) : String :=
  String.mk [digitChar (n / 100000), digitChar (n / 10000), digitChar (n / 1000),
    digitChar (n / 100), digitChar (n / 10), digitChar n]

/-- A Python `datetime`: calendar fields plus an optional UTC offset in
minutes (`Option.none` models a naive datetime, i.e. `tzinfo is None`). -/
structure Instant where
  year : Nat
  month : Nat
  day : Nat
  hour : Nat
  minute : Nat
  second : Nat
  microsecond : Nat
  utcOffsetMinutes : Option Int
  deriving DecidableEq

/-- The field ranges enforced by the CPython `datetime` constructor (the day
bound is the coarse upper bound 31; offsets are strictly inside one day). -/
def Instant.valid (d : Instant) : Bool :=
  decide (1 ≤ d.year) && decide (d.year ≤ 9999) &&
  decide (1 ≤ d.month) && decide (d.month ≤ 12) &&
  decide (1 ≤ d.day) && decide (d.day ≤ 31) &&
  decide (d.hour ≤ 23) && decide (d.minute ≤ 59) && decide (d.second ≤ 59) &&
  decide (d.microsecond ≤ 999999) &&
  (match d.utcOffsetMinutes with
   | Option.none => true
   | Option.some off => decide (off.natAbs ≤ 1439))

/-- The `+HH:MM` / `-HH:MM` suffix `datetime.isoformat` appends for an aware
datetime whose offset is a whole number of minutes. -/
def offsetText (off : Int) : String :=
  (if off < 0 then "-" else "+") ++ pad2 (off.natAbs / 60) ++ ":" ++ pad2 (off.natAbs % 60)

/-- CPython's `datetime.isoformat()` with the default separator:
`YYYY-MM-DDTHH:MM:SS`, then `.ffffff` exactly when the microsecond field is
non-zero, then the offset suffix exactly when the datetime is aware. -/
def Instant.isoformat (d : Instant) : String :=
  pad4 d.year ++ "-" ++ pad2 d.month ++ "-" ++ pad2 d.day ++ "T" ++
    pad2 d.hour ++ ":" ++ pad2 d.minute ++ ":" ++ pad2 d.second ++
    (if d.microsecond = 0 then "" else "." ++ pad6 d.microsecond) ++
    (match d.utcOffsetMinutes with
     | Option.none => ""
     | Option.some off => offsetText off)

/-- Checks that a string has the exact 20-character shape
`YYYY-MM-DDTHH:MM:SSZ`: digits in the calendar positions, the literal
separators `-`, `T`, `:`, and a final `Z`. -/
def isoShapeZ (s : String) : Bool :=
  match s.data with
  | [y1, y2, y3, y4, s1, m1, m2, s2, d1, d2, t, h1, h2, c1, n1, n2, c2, e1, e2, z] =>
      y1.isDigit && y2.isDigit && y3.isDigit && y4.isDigit && s1 == '-' &&
      m1.isDigit && m2.isDigit && s2 == '-' && d1.isDigit && d2.isDigit &&
      t == 'T' && h1.isDigit && h2.isDigit && c1 == ':' && n1.isDigit &&
      n2.isDigit && c2 == ':' && e1.isDigit && e2.isDigit && z == 'Z'
  | _ => false

theorem digitChar_isDigit (n : Nat) : (digitChar n).isDigit = true := by
  have h : n % 10 < 10 := Nat.mod_lt _ (by omega)
  unfold digitChar
  set k := n % 10 with hk
  interval_cases k <;> rfl

/-- For a naive instant with whole-second precision, the string the sanitizer
builds is the twenty fixed-width characters of `YYYY-MM-DDTHH:MM:SSZ`. -/
theorem isoformat_Z_data (d : Instant) (hms : d.microsecond = 0)
    (hoff : d.utcOffsetMinutes = Option.none) :
    (d.isoformat ++ "Z").data =
      [digitChar (d.year / 1000), digitChar (d.year / 100), digitChar (d.year / 10),
       digitChar d.year, '-', digitChar (d.month / 10), digitChar d.month, '-',
       digitChar (d.day / 10), digitChar d.day, 'T', digitChar (d.hour / 10),
       digitChar d.hour, ':', digitChar (d.minute / 10), digitChar d.minute, ':',
       digitChar (d.second / 10), digitChar d.second, 'Z'] := by
  simp [Instant.isoformat, hms, hoff, pad4, pad2, String.data_append]

example : Instant.isoformat ⟨2024, 1, 15, 10, 30, 0, 0, Option.none⟩ =
    "2024-01-15T10:30:00" := by decide

example : Instant.isoformat ⟨2024, 1, 15, 10, 30, 0, 123456, Option.none⟩ =
    "2024-01-15T10:30:00.123456" := by decide

example : Instant.isoformat ⟨2024, 1, 15, 10, 30, 0, 0, Option.some 330⟩ =
    "2024-01-15T10:30:00+05:30" := by decide

example : isoShapeZ "2024-01-15T10:30:00Z" = true := by decide

example : isoShapeZ "2024-01-15T10:30:00.123456Z" = false := by decide

/-- Character `n` of the standard RFC 4648 base64 alphabet
(`A-Z`, `a-z`, `0-9`, `+`, `/`), as used by Python's `base64.b64encode`. -/
def b64Char (n : Nat) : Char :=
  if n < 26 then Char.ofNat (65 + n)
  else if n < 52 then Char.ofNat (97 + (n - 26))
  else if n < 62 then Char.ofNat (48 + (n - 52))
  else if n = 62 then '+'
  else '/'

/-- The 6-bit value of a standard base64 alphabet character, as used by
Python's `base64.b64decode`. -/
def b64CharVal (c : Char) : Nat :=
  if 65 ≤ c.toNat ∧ c.toNat ≤ 90 then c.toNat - 65
  else if 97 ≤ c.toNat ∧ c.toNat ≤ 122 then c.toNat - 97 + 26
  else if 48 ≤ c.toNat ∧ c.toNat ≤ 57 then c.toNat - 48 + 52
  else if c = '+' then 62
  else 63

/-- Standard base64 encoding of a byte list, three bytes to four characters,
padded with `=` and never wrapped, as `base64.b64encode` produces it. -/
def b64encodeList : List Nat → List Char
  | [] => []
  | [b0] => [b64Char (b0 / 4), b64Char (b0 % 4 * 16), '=', '=']
  | [b0, b1] => [b64Char (b0 / 4), b64Char (b0 % 4 * 16 + b1 / 16), b64Char (b1 % 16 * 4), '=']
  | b0 :: b1 :: b2 :: rest =>
      b64Char (b0 / 4) :: b64Char (b0 % 4 * 16 + b1 / 16) ::
        b64Char (b1 % 16 * 4 + b2 / 64) :: b64Char (b2 % 64) :: b64encodeList rest

/-- The base64 text the sanitizer stores for a byte blob:
`base64.b64encode(obj).decode('utf-8')`. -/
def b64encode (data : List Nat) : String := String.mk (b64encodeList data)

/-- Standard base64 decoding of a padded character list, the inverse direction
used to state the byte-blob round-trip property. -/
def b64decodeList : List Char → List Nat
  | c0 :: c1 :: c2 :: c3 :: rest =>
      if c2 = '=' then [b64CharVal c0 * 4 + b64CharVal c1 / 16]
      else if c3 = '=' then
        [b64CharVal c0 * 4 + b64CharVal c1 / 16, b64CharVal c1 % 16 * 16 + b64CharVal c2 / 4]
      else
        (b64CharVal c0 * 4 + b64CharVal c1 / 16) ::
          (b64CharVal c1 % 16 * 16 + b64CharVal c2 / 4) ::
          (b64CharVal c2 % 4 * 64 + b64CharVal c3) :: b64decodeList rest
  | _ => []

/-- Base64 decoding of a string, byte values out. -/
def b64decode (s : String) : List Nat := b64decodeList s.data

/-- Membership in the 64-character RFC 4648 base64 alphabet (excludes the
padding character and all whitespace). -/
def isB64Alpha (c : Char) : Bool :=
  decide ((65 ≤ c.toNat ∧ c.toNat ≤ 90) ∨ (97 ≤ c.toNat ∧ c.toNat ≤ 122) ∨
    (48 ≤ c.toNat ∧ c.toNat ≤ 57) ∨ c = '+' ∨ c = '/')

theorem b64CharVal_b64Char : ∀ n, n < 64 → b64CharVal (b64Char n) = n := by decide

theorem b64Char_ne_pad : ∀ n, n < 64 → b64Char n ≠ '=' := by decide

theorem isB64Alpha_b64Char : ∀ n, n < 64 → isB64Alpha (b64Char n) = true := by decide

theorem b64decodeList_two_pads (c0 c1 : Char) :
    b64decodeList [c0, c1, '=', '='] = [b64CharVal c0 * 4 + b64CharVal c1 / 16] := by
  simp [b64decodeList]

theorem b64decodeList_one_pad (c0 c1 c2 : Char) (h : c2 ≠ '=') :
    b64decodeList [c0, c1, c2, '='] =
      [b64CharVal c0 * 4 + b64CharVal c1 / 16,
        b64CharVal c1 % 16 * 16 + b64CharVal c2 / 4] := by
  simp [b64decodeList, h]

theorem b64decodeList_no_pad (c0 c1 c2 c3 : Char) (rest : List Char)
    (h2 : c2 ≠ '=') (h3 : c3 ≠ '=') :
    b64decodeList (c0 :: c1 :: c2 :: c3 :: rest) =
      (b64CharVal c0 * 4 + b64CharVal c1 / 16) ::
        (b64CharVal c1 % 16 * 16 + b64CharVal c2 / 4) ::
        (b64CharVal c2 % 4 * 64 + b64CharVal c3) :: b64decodeList rest := by
  simp [b64decodeList, h2, h3]

theorem b64decodeList_b64encodeList :
    ∀ data : List Nat, (∀ x ∈ data, x < 256) →
      b64decodeList (b64encodeList data) = data
  | [], _ => rfl
  | [b0], h => by
      have h0 : b0 < 256 := h b0 (by simp)
      show b64decodeList [b64Char (b0 / 4), b64Char (b0 % 4 * 16), '=', '='] = [b0]
      rw [b64decodeList_two_pads]
      rw [b64CharVal_b64Char _ (by omega), b64CharVal_b64Char _ (by omega)]
      simp only [List.cons.injEq, and_true]
      omega
  | [b0, b1], h => by
      have h0 : b0 < 256 := h b0 (by simp)
      have h1 : b1 < 256 := h b1 (by simp)
      show b64decodeList [b64Char (b0 / 4), b64Char (b0 % 4 * 16 + b1 / 16),
        b64Char (b1 % 16 * 4), '='] = [b0, b1]
      rw [b64decodeList_one_pad _ _ _ (b64Char_ne_pad _ (by omega))]
      rw [b64CharVal_b64Char _ (by omega), b64CharVal_b64Char _ (by omega),
        b64CharVal_b64Char _ (by omega)]
      simp only [List.cons.injEq, and_true]
      omega
  | b0 :: b1 :: b2 :: b3 :: tail, h => by
      have h0 : b0 < 256 := h b0 (by simp)
      have h1 : b1 < 256 := h b1 (by simp)
      have h2 : b2 < 256 := h b2 (by simp)
      have ih := b64decodeList_b64encodeList (b3 :: tail) (fun x hx => h x (by simp [hx]))
      show b64decodeList (b64Char (b0 / 4) :: b64Char (b0 % 4 * 16 + b1 / 16) ::
        b64Char (b1 % 16 * 4 + b2 / 64) :: b64Char (b2 % 64) ::
        b64encodeList (b3 :: tail)) = b0 :: b1 :: b2 :: b3 :: tail
      rw [b64decodeList_no_pad _ _ _ _ _ (b64Char_ne_pad _ (by omega))
        (b64Char_ne_pad _ (by omega))]
      rw [b64CharVal_b64Char _ (by omega), b64CharVal_b64Char _ (by omega),
        b64CharVal_b64Char _ (by omega), b64CharVal_b64Char _ (by omega)]
      rw [ih]
      simp only [List.cons.injEq, and_true, true_and, and_self_iff]
      refine ⟨by omega, by omega, by omega⟩
  | [b0, b1, b2], h => by
      have h0 : b0 < 256 := h b0 (by simp)
      have h1 : b1 < 256 := h b1 (by simp)
      have h2 : b2 < 256 := h b2 (by simp)
      show b64decodeList [b64Char (b0 / 4), b64Char (b0 % 4 * 16 + b1 / 16),
        b64Char (b1 % 16 * 4 + b2 / 64), b64Char (b2 % 64)] = [b0, b1, b2]
      rw [b64decodeList_no_pad _ _ _ _ _ (b64Char_ne_pad _ (by omega))
        (b64Char_ne_pad _ (by omega))]
      rw [b64CharVal_b64Char _ (by omega), b64CharVal_b64Char _ (by omega),
        b64CharVal_b64Char _ (by omega), b64CharVal_b64Char _ (by omega)]
      simp only [b64decodeList, List.cons.injEq, and_true]
      omega

theorem b64encodeList_alpha :
    ∀ data : List Nat, (∀ x ∈ data, x < 256) →
      ∀ c ∈ b64encodeList data, isB64Alpha c = true ∨ c = '='
  | [], _ => by simp [b64encodeList]
  | [b0], h => by
      have h0 : b0 < 256 := h b0 (by simp)
      simp only [b64encodeList, List.mem_cons, List.not_mem_nil, or_false]
      rintro c (rfl | rfl | rfl | rfl)
      · exact Or.inl (isB64Alpha_b64Char _ (by omega))
      · exact Or.inl (isB64Alpha_b64Char _ (by omega))
      · exact Or.inr rfl
      · exact Or.inr rfl
  | [b0, b1], h => by
      have h0 : b0 < 256 := h b0 (by simp)
      have h1 : b1 < 256 := h b1 (by simp)
      simp only [b64encodeList, List.mem_cons, List.not_mem_nil, or_false]
      rintro c (rfl | rfl | rfl | rfl)
      · exact Or.inl (isB64Alpha_b64Char _ (by omega))
      · exact Or.inl (isB64Alpha_b64Char _ (by omega))
      · exact Or.inl (isB64Alpha_b64Char _ (by omega))
      · exact Or.inr rfl
  | b0 :: b1 :: b2 :: rest, h => by
      have h0 : b0 < 256 := h b0 (by simp)
      have h1 : b1 < 256 := h b1 (by simp)
      have h2 : b2 < 256 := h b2 (by simp)
      have ih := b64encodeList_alpha rest (fun x hx => h x (by simp [hx]))
      simp only [b64encodeList, List.mem_cons]
      rintro c (rfl | rfl | rfl | rfl | hc)
      · exact Or.inl (isB64Alpha_b64Char _ (by omega))
      · exact Or.inl (isB64Alpha_b64Char _ (by omega))
      · exact Or.inl (isB64Alpha_b64Char _ (by omega))
      · exact Or.inl (isB64Alpha_b64Char _ (by omega))
      · exact ih c hc

theorem b64encodeList_length :
    ∀ data : List Nat, (b64encodeList data).length = 4 * ((data.length + 2) / 3)
  | [] => rfl
  | [b0] => by simp [b64encodeList]
  | [b0, b1] => by simp [b64encodeList]
  | b0 :: b1 :: b2 :: rest => by
      simp only [b64encodeList, List.length_cons, b64encodeList_length rest]
      omega

example : b64encode [0, 1, 2] = "AAEC" := by decide

example : b64encode [97, 98] = "YWI=" := by decide

example : b64decode (b64encode [255, 254, 7, 9]) = [255, 254, 7, 9] := by decide

mutual
/-- A Python value as `simulate_swift_sanitize` dispatches on it: the safe
scalars (`str`, `int`, `float`, `bool`, `None`), the three non-safe scalar
kinds (`datetime`, `bytes`, `Path`), and the two containers (`dict` in
insertion order, `list`). A `float` is carried as its IEEE-754 bit pattern;
the sanitizer never inspects it. Dictionary keys are arbitrary values, as in
Python. -/
inductive Value : Type where
  | str (s : String)
  | int (n : Int)
  | float (bits : Nat)
  | bool (b : Bool)
  | null
  | datetime (d : Instant)
  | bytes (data : List Nat)
  | path (p : String)
  | dict (entries : EntryList)
  | list (elems : ValueList)
  deriving DecidableEq

/-- The key/value entries of a `dict`, in insertion order. -/
inductive EntryList : Type where
  | nil
  | cons (key : Value) (val : Value) (tail : EntryList)
  deriving DecidableEq

/-- The elements of a `list`, in order. -/
inductive ValueList : Type where
  | nil
  | cons (head : Value) (tail : ValueList)
  deriving DecidableEq
end

mutual
/-- The sanitizer of `demonstrate_yaml_fix.py` lines 61-81: `datetime` becomes
`obj.isoformat() + "Z"`, `bytes` becomes `base64.b64encode(obj)` text, `Path`
becomes `str(obj)`, a `dict` is rebuilt with unchanged keys and sanitized
values, a `list` is rebuilt with sanitized elements, and every other value is
returned as-is. -/
def simulate_swift_sanitize : Value → Value
  | .datetime d => .str (d.isoformat ++ "Z")
  | .bytes data => .str (b64encode data)
  | .path p => .str p
  | .dict entries => .dict (sanitizeEntries entries)
  | .list elems => .list (sanitizeElems elems)
  | v => v

/-- The dict comprehension of line 75: each key is copied unchanged and the
sanitizer recurses into the value. -/
def sanitizeEntries : EntryList → EntryList
  | .nil => .nil
  | .cons k v tail => .cons k (simulate_swift_sanitize v) (sanitizeEntries tail)

/-- The list comprehension of line 78: the sanitizer recurses into every
element. -/
def sanitizeElems : ValueList → ValueList
  | .nil => .nil
  | .cons v tail => .cons (simulate_swift_sanitize v) (sanitizeElems tail)
end

/-- Recognizes a text-string scalar. -/
def Value.isText : Value → Bool
  | .str _ => true
  | _ => false

/-- Recognizes the two container kinds. -/
def Value.isContainer : Value → Bool
  | .dict _ => true
  | .list _ => true
  | _ => false

mutual
/-- Holds when every node of the tree, keys included, is a safe scalar
(text, number, boolean, null) or a container: no `datetime`, `bytes` or
`Path` anywhere. This is the spec's SafeValue subset. -/
def isSafeValue : Value → Bool
  | .datetime _ => false
  | .bytes _ => false
  | .path _ => false
  | .dict entries => isSafeEntries entries
  | .list elems => isSafeElems elems
  | _ => true

def isSafeEntries : EntryList → Bool
  | .nil => true
  | .cons k v tail => isSafeValue k && isSafeValue v && isSafeEntries tail

def isSafeElems : ValueList → Bool
  | .nil => true
  | .cons v tail => isSafeValue v && isSafeElems tail
end

mutual
/-- Holds when every mapping key in the tree is a text string — the spec's
data model, where Value mappings are `Mapping<Text, Value>`. -/
def textKeys : Value → Bool
  | .dict entries => textKeysEntries entries
  | .list elems => textKeysElems elems
  | _ => true

def textKeysEntries : EntryList → Bool
  | .nil => true
  | .cons k v tail => k.isText && textKeys v && textKeysEntries tail

def textKeysElems : ValueList → Bool
  | .nil => true
  | .cons v tail => textKeys v && textKeysElems tail
end

example : simulate_swift_sanitize (.dict (.cons (.str "blob") (.bytes [0, 1, 2]) .nil)) =
    .dict (.cons (.str "blob") (.str "AAEC") .nil) := by decide

example : simulate_swift_sanitize (.list (.cons (.datetime ⟨2024, 1, 15, 10, 30, 0, 0,
    Option.none⟩) .nil)) = .list (.cons (.str "2024-01-15T10:30:00Z") .nil) := by decide

mutual
/-- Structural agreement of two trees: dicts match dicts entry-for-entry with
equal keys in equal order, lists match lists element-for-element, and scalars
match scalars; nothing else matches. -/
def sameStruct : Value → Value → Bool
  | .dict es, .dict fs => sameStructEntries es fs
  | .list xs, .list ys => sameStructElems xs ys
  | a, b => !a.isContainer && !b.isContainer

def sameStructEntries : EntryList → EntryList → Bool
  | .nil, .nil => true
  | .cons k v tail, .cons k2 v2 tail2 =>
      decide (k = k2) && sameStruct v v2 && sameStructEntries tail tail2
  | _, _ => false

def sameStructElems : ValueList → ValueList → Bool
  | .nil, .nil => true
  | .cons v tail, .cons v2 tail2 => sameStruct v v2 && sameStructElems tail tail2
  | _, _ => false
end

/-- The keys of a dict entry list, in insertion order. -/
def entryKeys : EntryList → List Value
  | .nil => []
  | .cons k _ tail => k :: entryKeys tail

mutual
/-- Every mapping key occurring anywhere in the tree, outermost first, each
key taken whole as the value it is. -/
def collectKeys : Value → List Value
  | .dict es => collectKeysEntries es
  | .list xs => collectKeysElems xs
  | _ => []

def collectKeysEntries : EntryList → List Value
  | .nil => []
  | .cons k v tail => k :: (collectKeys v ++ collectKeysEntries tail)

def collectKeysElems : ValueList → List Value
  | .nil => []
  | .cons v tail => collectKeys v ++ collectKeysElems tail
end

/-- A safe value nested inside `n` singleton lists, used to state that the
sanitizer terminates at every nesting depth. -/
def deepNest : Nat → Value
  | 0 => .str "leaf"
  | n + 1 => .list (.cons (deepNest n) .nil)

/-- A byte blob nested inside `n` singleton lists. -/
def deepNestBlob : Nat → Value
  | 0 => .bytes [0, 1, 2]
  | n + 1 => .list (.cons (deepNestBlob n) .nil)

/-- The sanitized form of `deepNestBlob n`: the base64 text nested inside the
same `n` singleton lists. -/
def deepNestSafe : Nat → Value
  | 0 => .str "AAEC"
  | n + 1 => .list (.cons (deepNestSafe n) .nil)

example : sameStruct (.dict (.cons (.str "a") (.bytes [1]) .nil))
    (simulate_swift_sanitize (.dict (.cons (.str "a") (.bytes [1]) .nil))) = true := by decide

example : collectKeys (.dict (.cons (.datetime ⟨2024, 1, 15, 10, 30, 0, 0, Option.none⟩)
    (.int 3) .nil)) = [.datetime ⟨2024, 1, 15, 10, 30, 0, 0, Option.none⟩] := by decide

theorem isSafeValue_of_isText (v : Value) (h : v.isText = true) : isSafeValue v = true := by
  cases v <;> simp_all [Value.isText, isSafeValue]

mutual
theorem typeClosure_aux (v : Value) (h : textKeys v = true) :
    isSafeValue (simulate_swift_sanitize v) = true := by
  cases v with
  | dict es =>
      simp only [textKeys] at h
      simp only [simulate_swift_sanitize, isSafeValue]
      exact typeClosureEntries_aux es h
  | list xs =>
      simp only [textKeys] at h
      simp only [simulate_swift_sanitize, isSafeValue]
      exact typeClosureElems_aux xs h
  | str s => rfl
  | int n => rfl
  | float b => rfl
  | bool b => rfl
  | null => rfl
  | datetime d => rfl
  | bytes data => rfl
  | path p => rfl

theorem typeClosureEntries_aux (es : EntryList) (h : textKeysEntries es = true) :
    isSafeEntries (sanitizeEntries es) = true := by
  cases es with
  | nil => rfl
  | cons k v tail =>
      simp only [textKeysEntries, Bool.and_eq_true] at h
      simp only [sanitizeEntries, isSafeEntries, Bool.and_eq_true]
      exact ⟨⟨isSafeValue_of_isText k h.1.1, typeClosure_aux v h.1.2⟩,
        typeClosureEntries_aux tail h.2⟩

theorem typeClosureElems_aux (xs : ValueList) (h : textKeysElems xs = true) :
    isSafeElems (sanitizeElems xs) = true := by
  cases xs with
  | nil => rfl
  | cons v tail =>
      simp only [textKeysElems, Bool.and_eq_true] at h
      simp only [sanitizeElems, isSafeElems, Bool.and_eq_true]
      exact ⟨typeClosure_aux v h.1, typeClosureElems_aux tail h.2⟩
end

mutual
theorem safeFix_aux (v : Value) (h : isSafeValue v = true) :
    simulate_swift_sanitize v = v := by
  cases v with
  | dict es =>
      simp only [isSafeValue] at h
      simp only [simulate_swift_sanitize]
      exact congrArg Value.dict (safeFixEntries_aux es h)
  | list xs =>
      simp only [isSafeValue] at h
      simp only [simulate_swift_sanitize]
      exact congrArg Value.list (safeFixElems_aux xs h)
  | str s => rfl
  | int n => rfl
  | float b => rfl
  | bool b => rfl
  | null => rfl
  | datetime d => simp [isSafeValue] at h
  | bytes data => simp [isSafeValue] at h
  | path p => simp [isSafeValue] at h

theorem safeFixEntries_aux (es : EntryList) (h : isSafeEntries es = true) :
    sanitizeEntries es = es := by
  cases es with
  | nil => rfl
  | cons k v tail =>
      simp only [isSafeEntries, Bool.and_eq_true] at h
      simp only [sanitizeEntries]
      rw [safeFix_aux v h.1.2, safeFixEntries_aux tail h.2]

theorem safeFixElems_aux (xs : ValueList) (h : isSafeElems xs = true) :
    sanitizeElems xs = xs := by
  cases xs with
  | nil => rfl
  | cons v tail =>
      simp only [isSafeElems, Bool.and_eq_true] at h
      simp only [sanitizeElems]
      rw [safeFix_aux v h.1, safeFixElems_aux tail h.2]
end

mutual
theorem sameStruct_aux (v : Value) : sameStruct v (simulate_swift_sanitize v) = true := by
  cases v with
  | dict es =>
      simp only [simulate_swift_sanitize, sameStruct]
      exact sameStructEntries_aux es
  | list xs =>
      simp only [simulate_swift_sanitize, sameStruct]
      exact sameStructElems_aux xs
  | str s => rfl
  | int n => rfl
  | float b => rfl
  | bool b => rfl
  | null => rfl
  | datetime d => rfl
  | bytes data => rfl
  | path p => rfl

theorem sameStructEntries_aux (es : EntryList) :
    sameStructEntries es (sanitizeEntries es) = true := by
  cases es with
  | nil => rfl
  | cons k v tail =>
      simp only [sanitizeEntries, sameStructEntries, Bool.and_eq_true]
      exact ⟨⟨by simp, sameStruct_aux v⟩, sameStructEntries_aux tail⟩

theorem sameStructElems_aux (xs : ValueList) :
    sameStructElems xs (sanitizeElems xs) = true := by
  cases xs with
  | nil => rfl
  | cons v tail =>
      simp only [sanitizeElems, sameStructElems, Bool.and_eq_true]
      exact ⟨sameStruct_aux v, sameStructElems_aux tail⟩
end

mutual
theorem collectKeys_aux (v : Value) :
    collectKeys (simulate_swift_sanitize v) = collectKeys v := by
  cases v with
  | dict es =>
      simp only [simulate_swift_sanitize, collectKeys]
      exact collectKeysEntries_aux es
  | list xs =>
      simp only [simulate_swift_sanitize, collectKeys]
      exact collectKeysElems_aux xs
  | str s => rfl
  | int n => rfl
  | float b => rfl
  | bool b => rfl
  | null => rfl
  | datetime d => rfl
  | bytes data => rfl
  | path p => rfl

theorem collectKeysEntries_aux (es : EntryList) :
    collectKeysEntries (sanitizeEntries es) = collectKeysEntries es := by
  cases es with
  | nil => rfl
  | cons k v tail =>
      simp only [sanitizeEntries, collectKeysEntries]
      rw [collectKeys_aux v, collectKeysEntries_aux tail]

theorem collectKeysElems_aux (xs : ValueList) :
    collectKeysElems (sanitizeElems xs) = collectKeysElems xs := by
  cases xs with
  | nil => rfl
  | cons v tail =>
      simp only [sanitizeElems, collectKeysElems]
      rw [collectKeys_aux v, collectKeysElems_aux tail]
end

theorem entryKeys_sanitizeEntries :
    ∀ es : EntryList, entryKeys (sanitizeEntries es) = entryKeys es
  | .nil => rfl
  | .cons k v tail => by
      simp only [sanitizeEntries, entryKeys, entryKeys_sanitizeEntries tail]

theorem sanitize_deepNest (n : Nat) :
    simulate_swift_sanitize (deepNest n) = deepNest n := by
  induction n with
  | zero => rfl
  | succ n ih =>
      simp only [deepNest, simulate_swift_sanitize, sanitizeElems, ih]

theorem sanitize_deepNestBlob (n : Nat) :
    simulate_swift_sanitize (deepNestBlob n) = deepNestSafe n := by
  induction n with
  | zero => rfl
  | succ n ih =>
      simp only [deepNestBlob, deepNestSafe, simulate_swift_sanitize, sanitizeElems, ih]

/-- C1 (Type-closure): for every Value `v` — in the spec's data model, where
mapping keys are text (`Mapping<Text, Value>`, captured by `textKeys v`) —
every node of `sanitize(v)` is a safe scalar (text, number, boolean, null) or
a container; no node of the output tree is an Instant, ByteBlob, or
FileLocation. -/
theorem sanitize_type_closure (v : Value) (h : textKeys v = true) :
    isSafeValue (simulate_swift_sanitize v) = true :=
  typeClosure_aux v h

theorem sanitize_type_closure_witness :
    isSafeValue (simulate_swift_sanitize (.dict (.cons (.str "install_date")
      (.datetime ⟨2024, 1, 15, 10, 30, 0, 0, Option.none⟩)
      (.cons (.str "receipt_data") (.bytes [1, 2])
      (.cons (.str "package_path") (.path "/path/to/package.pkg")
      (.cons (.str "nested") (.list (.cons (.bytes [255]) .nil)) .nil)))))) = true :=
  sanitize_type_closure _ (by decide)

/-- C2 (counterexample): the claim that the output has the shape
`YYYY-MM-DDTHH:MM:SSZ` for every Instant input fails on the code. The Python
source appends `"Z"` to `obj.isoformat()`, and `isoformat` keeps sub-second
precision and a carried offset: a datetime with microseconds yields
`2024-01-15T10:30:00.123456Z`, and an aware datetime at UTC+05:30 yields
`2024-01-15T10:30:00+05:30Z` — neither of the 20-character claimed shape. -/
theorem sanitize_instant_shape_cex :
    simulate_swift_sanitize (.datetime ⟨2024, 1, 15, 10, 30, 0, 123456, Option.none⟩) =
      .str "2024-01-15T10:30:00.123456Z" ∧
    isoShapeZ "2024-01-15T10:30:00.123456Z" = false ∧
    simulate_swift_sanitize (.datetime ⟨2024, 1, 15, 10, 30, 0, 0, Option.some 330⟩) =
      .str "2024-01-15T10:30:00+05:30Z" ∧
    isoShapeZ "2024-01-15T10:30:00+05:30Z" = false := by decide

/-- C2 (amended): for every Instant input (a valid datetime), sanitize returns
the text `isoformat() + "Z"` — the trailing UTC designator is appended
unconditionally, regardless of offset or sub-second precision — and the
output has the exact shape `YYYY-MM-DDTHH:MM:SSZ` when the instant carries no
sub-second component and no offset; otherwise the fractional seconds and/or
the offset appear before the `Z`. -/
theorem sanitize_instant_format (d : Instant) (_hv : d.valid = true) :
    simulate_swift_sanitize (.datetime d) = .str (d.isoformat ++ "Z") ∧
    (d.microsecond = 0 → d.utcOffsetMinutes = Option.none →
      isoShapeZ (d.isoformat ++ "Z") = true) := by
  refine ⟨rfl, fun hms hoff => ?_⟩
  unfold isoShapeZ
  rw [isoformat_Z_data d hms hoff]
  simp [digitChar_isDigit]

theorem sanitize_instant_format_witness :
    simulate_swift_sanitize (.datetime ⟨2024, 1, 15, 10, 30, 0, 0, Option.none⟩) =
      .str (Instant.isoformat ⟨2024, 1, 15, 10, 30, 0, 0, Option.none⟩ ++ "Z") ∧
    (Instant.microsecond ⟨2024, 1, 15, 10, 30, 0, 0, Option.none⟩ = 0 →
      Instant.utcOffsetMinutes ⟨2024, 1, 15, 10, 30, 0, 0, Option.none⟩ = Option.none →
      isoShapeZ (Instant.isoformat ⟨2024, 1, 15, 10, 30, 0, 0, Option.none⟩ ++ "Z") = true) :=
  sanitize_instant_format ⟨2024, 1, 15, 10, 30, 0, 0, Option.none⟩ (by decide)

/-- C3 (Structure preservation): sanitize maps dicts to dicts and lists to
lists with the same length, the same keys in the same insertion order, and
the same element order at every level; only scalar leaves are transformed,
and the empty dict and empty list pass through as themselves. -/
theorem sanitize_structure_preservation :
    (∀ v : Value, sameStruct v (simulate_swift_sanitize v) = true) ∧
    (∀ es : EntryList, entryKeys (sanitizeEntries es) = entryKeys es) ∧
    simulate_swift_sanitize (.dict .nil) = .dict .nil ∧
    simulate_swift_sanitize (.list .nil) = .list .nil :=
  ⟨sameStruct_aux, entryKeys_sanitizeEntries, rfl, rfl⟩

/-- C4 (Base64 round-trip): for every byte blob, sanitize produces the RFC
4648 base64 text of the blob — alphabet characters plus `=` padding only, so
in particular no line wrapping, with the padded length `4 * ceil(n/3)` — and
decoding that text restores the blob byte for byte. -/
theorem sanitize_bytes_roundtrip (data : List Nat) (h : ∀ x ∈ data, x < 256) :
    simulate_swift_sanitize (.bytes data) = .str (b64encode data) ∧
    b64decode (b64encode data) = data ∧
    (∀ c ∈ (b64encode data).data, isB64Alpha c = true ∨ c = '=') ∧
    (∀ c ∈ (b64encode data).data, c ≠ '\n') ∧
    (b64encode data).length = 4 * ((data.length + 2) / 3) := by
  refine ⟨rfl, b64decodeList_b64encodeList data h, b64encodeList_alpha data h, ?_,
    b64encodeList_length data⟩
  intro c hc heq
  rcases b64encodeList_alpha data h c hc with ha | ha
  · rw [heq] at ha
    exact absurd ha (by decide)
  · rw [ha] at heq
    exact absurd heq (by decide)

theorem sanitize_bytes_roundtrip_witness :
    simulate_swift_sanitize (.bytes [0, 1, 2]) = .str (b64encode [0, 1, 2]) ∧
    b64decode (b64encode [0, 1, 2]) = [0, 1, 2] ∧
    (∀ c ∈ (b64encode [0, 1, 2]).data, isB64Alpha c = true ∨ c = '=') ∧
    (∀ c ∈ (b64encode [0, 1, 2]).data, c ≠ '\n') ∧
    (b64encode [0, 1, 2]).length = 4 * (([0, 1, 2].length + 2) / 3) :=
  sanitize_bytes_roundtrip [0, 1, 2] (by decide)

/-- C5 (Idempotence on safe input): a tree whose scalar leaves are only text,
number, boolean, or null is returned exactly as it is; in particular every
safe scalar, null included, passes through unchanged. -/
theorem sanitize_idempotent_on_safe (v : Value) (h : isSafeValue v = true) :
    simulate_swift_sanitize v = v :=
  safeFix_aux v h

theorem sanitize_idempotent_on_safe_witness :
    simulate_swift_sanitize (.dict (.cons (.str "name") (.str "Widget")
      (.cons (.str "count") (.int 3) (.cons (.str "ok") (.bool true)
      (.cons (.str "nothing") .null .nil))))) =
      .dict (.cons (.str "name") (.str "Widget") (.cons (.str "count") (.int 3)
      (.cons (.str "ok") (.bool true) (.cons (.str "nothing") .null .nil)))) :=
  sanitize_idempotent_on_safe _ (by decide)

/-- C6 (End-to-end scenarios): the blob mapping becomes its base64 text, the
naive datetime for 2024-01-15T10:30:00 (the code's own representation of that
UTC instant, line 34 of the source) becomes `2024-01-15T10:30:00Z`, and the
empty mapping maps to the empty mapping. -/
theorem sanitize_scenarios :
    simulate_swift_sanitize (.dict (.cons (.str "blob") (.bytes [0, 1, 2]) .nil)) =
      .dict (.cons (.str "blob") (.str "AAEC") .nil) ∧
    simulate_swift_sanitize (.dict (.cons (.str "when")
      (.datetime ⟨2024, 1, 15, 10, 30, 0, 0, Option.none⟩) .nil)) =
      .dict (.cons (.str "when") (.str "2024-01-15T10:30:00Z") .nil) ∧
    simulate_swift_sanitize (.dict .nil) = .dict .nil := by decide

/-- C7 (Totality): the sanitizer is a total function on the well-formed
(finite, acyclic) values modelled by `Value` — its structural recursion is
accepted by Lean, every input has an output, and it succeeds at every nesting
depth `n`, converting non-safe leaves however deeply they sit. -/
theorem sanitize_total :
    (∀ v : Value, ∃ r : Value, simulate_swift_sanitize v = r) ∧
    (∀ n : Nat, simulate_swift_sanitize (deepNest n) = deepNest n) ∧
    (∀ n : Nat, simulate_swift_sanitize (deepNestBlob n) = deepNestSafe n) :=
  ⟨fun v => ⟨simulate_swift_sanitize v, rfl⟩, sanitize_deepNest, sanitize_deepNestBlob⟩

/-- C8 (FileLocation passthrough): sanitize returns exactly the canonical
string the location carries — `str(obj)` — with no resolution of `.` or `..`
components and, being a pure function, no filesystem access. -/
theorem sanitize_path_verbatim :
    (∀ p : String, simulate_swift_sanitize (.path p) = .str p) ∧
    simulate_swift_sanitize (.path "/a/./b/../c.pkg") = .str "/a/./b/../c.pkg" :=
  ⟨fun _ => rfl, rfl⟩

/-- C9 (Determinism): sanitize is a function of its input alone — equal
inputs give equal outputs, equal instants give the identical formatted
string, and the string produced for an instant is determined by the instant's
fields, with no locale or timezone state in the model to drift between
calls. -/
theorem sanitize_deterministic (v1 v2 : Value) (d1 d2 : Instant)
    (hv : v1 = v2) (hd : d1 = d2) :
    simulate_swift_sanitize v1 = simulate_swift_sanitize v2 ∧
    simulate_swift_sanitize (.datetime d1) = simulate_swift_sanitize (.datetime d2) ∧
    simulate_swift_sanitize (.datetime d1) = .str (d1.isoformat ++ "Z") :=
  ⟨congrArg simulate_swift_sanitize hv,
    congrArg (fun d => simulate_swift_sanitize (.datetime d)) hd, rfl⟩

theorem sanitize_deterministic_witness :
    simulate_swift_sanitize (.bytes [7]) = simulate_swift_sanitize (.bytes [7]) ∧
    simulate_swift_sanitize (.datetime ⟨2024, 1, 15, 10, 30, 0, 0, Option.none⟩) =
      simulate_swift_sanitize (.datetime ⟨2024, 1, 15, 10, 30, 0, 0, Option.none⟩) ∧
    simulate_swift_sanitize (.datetime ⟨2024, 1, 15, 10, 30, 0, 0, Option.none⟩) =
      .str (Instant.isoformat ⟨2024, 1, 15, 10, 30, 0, 0, Option.none⟩ ++ "Z") :=
  sanitize_deterministic _ _ _ _ rfl rfl

/-- C10 (Keys never sanitized): every mapping key anywhere in the tree
appears in the output exactly as it appeared in the input — the transform is
applied only to the associated values — including a non-text key such as an
Instant or a ByteBlob. -/
theorem sanitize_keys_untouched :
    (∀ v : Value, collectKeys (simulate_swift_sanitize v) = collectKeys v) ∧
    simulate_swift_sanitize (.dict (.cons (.datetime ⟨2024, 1, 15, 10, 30, 0, 0, Option.none⟩)
      (.bytes [0, 1, 2]) (.cons (.bytes [255])
      (.datetime ⟨2024, 1, 15, 10, 30, 0, 0, Option.none⟩) .nil))) =
      .dict (.cons (.datetime ⟨2024, 1, 15, 10, 30, 0, 0, Option.none⟩) (.str "AAEC")
      (.cons (.bytes [255]) (.str "2024-01-15T10:30:00Z") .nil)) :=
  ⟨collectKeys_aux, by decide⟩
